import Mathlib

/-!
Verification of the order-submission benchmark harness
(`api-client/examples/benchmark.rs`).

The harness spawns one asynchronous task per order (market and limit),
each running a multi-phase pipeline (client creation, nonce retrieval,
payload assembly, signing, submission, response classification), then
folds the joined task results into counters and a signing-duration
sample, and finally reports totals and nearest-rank percentiles.

Shallow embedding conventions:
* `Duration` values are modelled as `Nat` (nanoseconds); Rust `Duration`
  addition is `Nat` addition, and the panicking subtraction is modelled
  by the `Option`-valued `durSub`.
* External collaborators (client construction, nonce fetch, signing,
  the HTTP POST, and the JSON text parser of the response body) are
  modelled as oracle inputs in `UnitEnv`: each carries the outcome the
  external call produced, exactly as the pipeline consumes it.
* `Vec::sort` (ascending stable sort) is embedded as
  `List.insertionSort (· ≤ ·)`; on `Nat` the sorted permutation is
  unique, so any correct ascending sort is extensionally the same.
* The index expressions `(len as f64 * 0.95) as usize` and
  `(len as f64 * 0.99) as usize` are embedded as `n * 95 / 100` and
  `n * 99 / 100` (floor): `0.95` rounds up and `0.99` rounds down as
  an `f64`, and in both directions the perturbation is far below the
  half-ulp needed to move the truncation off `⌊n·p⌋` for any feasible
  sample length.
-/

/-- Minimal JSON value model, mirroring `serde_json::Value` as used by the
response-classification code. -/
inductive Json where
  | null
  | bool (b : Bool)
  | num (n : Int)
  | str (s : String)
  | arr (elems : List Json)
  | obj (fields : List (String × Json))

/-- `serde_json` indexing `value["key"]`: field lookup on objects, `Null`
otherwise (missing key also yields `Null`). -/
def Json.get (j : Json) (key : String) : Json :=
  match j with
  | .obj fields => ((fields.find? (fun f => f.1 = key)).map (fun f => f.2)).getD .null
  | _ => .null

/-- `serde_json::Value::as_i64`: `Some` exactly on (integer) numbers. -/
def Json.as_i64 : Json → Option Int
  | .num n => some n
  | _ => none

/-- `serde_json::Value::as_str`: `Some` exactly on strings. -/
def Json.as_str : Json → Option String
  | .str s => some s
  | _ => none

/-- The tuple a pipeline task resolves to on the `Ok(Ok(..))` path:
`(signing_time, api_time, success, error)` as in the Rust
`OrderResult` payload. -/
structure OrderOutcome where
  signing_time : Nat
  api_time : Nat
  success : Bool
  error : Option String
deriving DecidableEq

/-- Result of the final `POST` of one unit: either a response whose body
parsed to `some j` (or `none` when the body text was missing or
malformed — `serde_json::from_str(..).unwrap_or(json!({}))`), or a
transport-level error. -/
inductive SendResult where
  | response (body : Option Json)
  | transportErr (e : String)

/-- Oracle inputs of one pipeline unit: what each external call returned
and how long the timed phases took. -/
structure UnitEnv where
  clientResult : Except String Unit
  nonceResult : Except String Int
  nonceTime : Nat
  signResult : Except String (List Nat)
  signTime : Nat
  sendResult : SendResult
  sendTime : Nat

/-- Response classification (the `match response { Ok(resp) => .. }` arm):
read the integer `code` (default `-1`), succeed iff `code == 200`,
otherwise carry the body's `message` or `"Unknown error"`. -/
def classifyResponse (body : Option Json) (signing_time api_time : Nat) : OrderOutcome :=
  let response_json := body.getD (Json.obj [])
  let code := ((response_json.get "code").as_i64).getD (-1)
  if code = 200 then
    ⟨signing_time, api_time, true, none⟩
  else
    ⟨signing_time, api_time, false, some (((response_json.get "message").as_str).getD "Unknown error")⟩

/-- One pipeline unit (the body of `tasks.spawn` for either order kind;
both kinds share this control flow). Every failure is converted in
place into a terminal `OrderOutcome`; the final API time is the send
timer plus the nonce timer (`api_start.elapsed() + nonce_time`). -/
def runUnit (env : UnitEnv) : OrderOutcome :=
  match env.clientResult with
  | .error e => ⟨0, 0, false, some ("Client creation error: " ++ e)⟩
  | .ok _ =>
    match env.nonceResult with
    | .error e => ⟨0, 0, false, some ("Nonce error: " ++ e)⟩
    | .ok _ =>
      match env.signResult with
      | .error e => ⟨0, env.nonceTime, false, some ("Signing error: " ++ e)⟩
      | .ok _ =>
        let api_time := env.sendTime + env.nonceTime
        match env.sendResult with
        | .response body => classifyResponse body env.signTime api_time
        | .transportErr e => ⟨env.signTime, api_time, false, some e⟩

/-- The transaction payload assembled before signing (`tx_info`).
The JSON key `Type` is spelled `orderType` here (`Type` is reserved). -/
structure TxInfo where
  AccountIndex : Int
  ApiKeyIndex : Nat
  MarketIndex : Nat
  ClientOrderIndex : Nat
  BaseAmount : Nat
  Price : Nat
  IsAsk : Nat
  orderType : Nat
  TimeInForce : Nat
  ReduceOnly : Nat
  TriggerPrice : Nat
  OrderExpiry : Nat
  ExpiredAt : Int
  Nonce : Int
  Sig : String
deriving DecidableEq

/-- Benchmark parameters hardcoded in `main`. -/
def num_market : Nat := 50

def num_limit : Nat := 50

def num_orders : Nat := 100

/-- Payload of the `i`-th market order task. -/
def mkMarketTx (account_index : Int) (api_key_index : Nat) (i : Nat)
    (expired_at : Int) (nonce : Int) : TxInfo :=
  { AccountIndex := account_index
    ApiKeyIndex := api_key_index
    MarketIndex := 0
    ClientOrderIndex := 1000000 + i
    BaseAmount := 1000
    Price := 349659
    IsAsk := if i % 2 = 0 then 1 else 0
    orderType := 1
    TimeInForce := 0
    ReduceOnly := 0
    TriggerPrice := 0
    OrderExpiry := 0
    ExpiredAt := expired_at
    Nonce := nonce
    Sig := "" }

/-- Payload of the `i`-th limit order task. -/
def mkLimitTx (account_index : Int) (api_key_index : Nat) (i : Nat)
    (expired_at : Int) (nonce : Int) : TxInfo :=
  { AccountIndex := account_index
    ApiKeyIndex := api_key_index
    MarketIndex := 0
    ClientOrderIndex := 2000000 + i
    BaseAmount := 1000
    Price := 349659
    IsAsk := if i % 2 = 0 then 1 else 0
    orderType := 0
    TimeInForce := 1
    ReduceOnly := 0
    TriggerPrice := 0
    OrderExpiry := 0
    ExpiredAt := expired_at
    Nonce := nonce
    Sig := "" }

/-- One result of `tasks.join_next()`: a task that resolved to
`Ok(Ok(outcome))`, a task that resolved to `Ok(Err(e))`, or a join
(runtime-level) error `Err(e)`. -/
inductive JoinResult where
  | outcome (o : OrderOutcome)
  | taskErr (e : String)
  | joinErr (e : String)
deriving DecidableEq

/-- The mutable accumulator `BenchmarkResult`. -/
structure BenchmarkResult where
  total_time : Nat
  signing_time : Nat
  api_time : Nat
  success_count : Nat
  error_count : Nat
  errors : List String
deriving DecidableEq

/-- State of the collection loop: the accumulator plus the
`signing_times` vector living beside it. -/
structure CollectState where
  results : BenchmarkResult
  signing_times : List Nat
deriving DecidableEq

/-- Initial state (the `BenchmarkResult { .. ZERO .. }` literal and the
empty `signing_times` vector). -/
def initState : CollectState :=
  ⟨⟨0, 0, 0, 0, 0, []⟩, []⟩

/-- One iteration of the `while let Some(result) = tasks.join_next()`
loop. -/
def collectStep (s : CollectState) (r : JoinResult) : CollectState :=
  match r with
  | .outcome o =>
    let res := s.results
    let res := { res with
      signing_time := res.signing_time + o.signing_time
      api_time := res.api_time + o.api_time }
    let res :=
      if o.success then
        { res with success_count := res.success_count + 1 }
      else
        { res with
          error_count := res.error_count + 1
          errors := res.errors ++ (match o.error with | some e => [e] | none => []) }
    { results := res, signing_times := s.signing_times ++ [o.signing_time] }
  | .taskErr e =>
    { s with results := { s.results with
        error_count := s.results.error_count + 1
        errors := s.results.errors ++ [e] } }
  | .joinErr e =>
    { s with results := { s.results with
        error_count := s.results.error_count + 1
        errors := s.results.errors ++ ["Task join error: " ++ e] } }

/-- Drain the whole join set. -/
def collect (rs : List JoinResult) : CollectState :=
  rs.foldl collectStep initState

/-- Rust `Duration` subtraction: panics (here `none`) on underflow. -/
def durSub (a b : Nat) : Option Nat :=
  if b ≤ a then some (a - b) else none

/-- The post-loop reconciliation: stamp the wall-clock elapsed time,
then — only when at least one signing sample exists — overwrite
`signing_time` with the exact sample sum and `api_time` with
`total_time - total_signing`. -/
def finalize (elapsed : Nat) (s : CollectState) : Option BenchmarkResult :=
  let res := { s.results with total_time := elapsed }
  if s.signing_times.isEmpty then
    some res
  else
    let total_signing := s.signing_times.sum
    match durSub elapsed total_signing with
    | some api => some { res with signing_time := total_signing, api_time := api }
    | none => none

/-- The derived distribution statistics. -/
structure LatencyDistribution where
  min : Nat
  max : Nat
  median : Nat
  p95 : Nat
  p99 : Nat
deriving DecidableEq

/-- The statistics block: sort ascending, then index by nearest rank
(`first`, `last`, `len/2`, `⌊len·0.95⌋`, `⌊len·0.99⌋`). `none` when the
sample is empty (the `if !signing_times.is_empty()` guard). -/
def computeStats (times : List Nat) : Option LatencyDistribution :=
  if times.isEmpty then
    none
  else
    let sorted := times.insertionSort (· ≤ ·)
    let n := sorted.length
    some ⟨sorted.headD 0, sorted.getLastD 0, sorted.getD (n / 2) 0,
      sorted.getD (n * 95 / 100) 0, sorted.getD (n * 99 / 100) 0⟩

/-- A join result carrying a normal pipeline outcome (`Ok(Ok(..))`). -/
def isOutcome : JoinResult → Bool
  | .outcome _ => true
  | _ => false

/-- A join result counted as a success by the collection loop. -/
def isSuccessResult : JoinResult → Bool
  | .outcome o => o.success
  | _ => false

/-- The signing duration a join result contributes to `signing_times`,
when it contributes one. -/
def signingOf : JoinResult → Option Nat
  | .outcome o => some o.signing_time
  | _ => none

lemma foldl_success_count (rs : List JoinResult) (s : CollectState) :
    (rs.foldl collectStep s).results.success_count
      = s.results.success_count + rs.countP isSuccessResult := by
  induction rs generalizing s with
  | nil => simp
  | cons r rs ih =>
    rw [List.foldl_cons, ih, List.countP_cons]
    cases r with
    | outcome o =>
      by_cases h : o.success <;> simp [collectStep, isSuccessResult, h] <;> omega
    | taskErr e => simp [collectStep, isSuccessResult]
    | joinErr e => simp [collectStep, isSuccessResult]

lemma foldl_error_count (rs : List JoinResult) (s : CollectState) :
    (rs.foldl collectStep s).results.error_count
      = s.results.error_count + rs.countP (fun r => ! isSuccessResult r) := by
  induction rs generalizing s with
  | nil => simp
  | cons r rs ih =>
    rw [List.foldl_cons, ih, List.countP_cons]
    cases r with
    | outcome o =>
      by_cases h : o.success <;> simp [collectStep, isSuccessResult, h] <;> omega
    | taskErr e => simp [collectStep, isSuccessResult]; omega
    | joinErr e => simp [collectStep, isSuccessResult]; omega

lemma foldl_signing_times (rs : List JoinResult) (s : CollectState) :
    (rs.foldl collectStep s).signing_times
      = s.signing_times ++ rs.filterMap signingOf := by
  induction rs generalizing s with
  | nil => simp
  | cons r rs ih =>
    rw [List.foldl_cons, ih, List.filterMap_cons]
    cases r with
    | outcome o => simp [collectStep, signingOf]
    | taskErr e => simp [collectStep, signingOf]
    | joinErr e => simp [collectStep, signingOf]

lemma foldl_signing_time_acc (rs : List JoinResult) (s : CollectState) :
    (rs.foldl collectStep s).results.signing_time
      = s.results.signing_time + (rs.filterMap signingOf).sum := by
  induction rs generalizing s with
  | nil => simp
  | cons r rs ih =>
    rw [List.foldl_cons, ih, List.filterMap_cons]
    cases r with
    | outcome o =>
      by_cases h : o.success <;> simp [collectStep, signingOf, h] <;> omega
    | taskErr e => simp [collectStep, signingOf]
    | joinErr e => simp [collectStep, signingOf]

lemma foldl_errors_length_le (rs : List JoinResult) (s : CollectState)
    (h : s.results.errors.length ≤ s.results.error_count) :
    (rs.foldl collectStep s).results.errors.length
      ≤ (rs.foldl collectStep s).results.error_count := by
  induction rs generalizing s with
  | nil => simpa using h
  | cons r rs ih =>
    rw [List.foldl_cons]
    apply ih
    cases r with
    | outcome o =>
      by_cases hs : o.success
      · simpa [collectStep, hs] using h
      · cases ho : o.error <;> simp [collectStep, hs, ho] <;> omega
    | taskErr e => simp [collectStep]; omega
    | joinErr e => simp [collectStep]; omega

lemma countP_not_add (p : JoinResult → Bool) (rs : List JoinResult) :
    rs.countP p + rs.countP (fun r => ! p r) = rs.length := by
  induction rs with
  | nil => rfl
  | cons r rs ih =>
    simp only [List.countP_cons, List.length_cons]
    by_cases h : p r <;> simp [h] <;> omega

lemma length_filterMap_signingOf (rs : List JoinResult) :
    (rs.filterMap signingOf).length = rs.countP isOutcome := by
  induction rs with
  | nil => rfl
  | cons r rs ih =>
    cases r <;> simp [signingOf, isOutcome, List.filterMap_cons, List.countP_cons, ih]

lemma finalize_nonempty_eq (elapsed : Nat) (s : CollectState)
    (hne : s.signing_times ≠ []) (hle : s.signing_times.sum ≤ elapsed) :
    finalize elapsed s = some
      { s.results with
        total_time := elapsed
        signing_time := s.signing_times.sum
        api_time := elapsed - s.signing_times.sum } := by
  have h1 : s.signing_times.isEmpty = false := by
    simpa [List.isEmpty_iff] using hne
  simp [finalize, h1, durSub, hle]

/-- C1: after draining all join results of a run configured with `M`
market and `L` limit orders (so exactly `M + L` join results arrive),
`success_count + error_count = M + L`: each join result — normal
outcome, task-level error, or join error — increments exactly one of
the two counters. -/
theorem c1_outcome_conservation (rs : List JoinResult) (M L : Nat)
    (h : rs.length = M + L) :
    (collect rs).results.success_count + (collect rs).results.error_count = M + L := by
  rw [← h]
  unfold collect
  rw [foldl_success_count, foldl_error_count]
  simpa [initState] using countP_not_add isSuccessResult rs

theorem c1_outcome_conservation_witness :
    [JoinResult.outcome ⟨5, 7, true, none⟩, JoinResult.joinErr "boom"].length = 1 + 1 ∧
    (collect [JoinResult.outcome ⟨5, 7, true, none⟩, JoinResult.joinErr "boom"]).results.success_count
      + (collect [JoinResult.outcome ⟨5, 7, true, none⟩, JoinResult.joinErr "boom"]).results.error_count
      = 1 + 1 :=
  ⟨by decide, c1_outcome_conservation _ 1 1 (by decide)⟩

/-- C2: nearest-rank statistics on the sample `{1,…,100}` (fed unsorted,
so the ascending sort is exercised): min = 1, max = 100,
median = element at index 50 = 51, p95 = element at index 95 = 96,
p99 = element at index 99 = 100. -/
theorem c2_percentile_indexing :
    computeStats ((List.range 100).map (fun k => 100 - k)) = some ⟨1, 100, 51, 96, 100⟩ ∧
    computeStats ((List.range 100).map (fun k => k + 1)) = some ⟨1, 100, 51, 96, 100⟩ := by
  constructor <;> decide

theorem c7_counterexample :
    (collect [JoinResult.joinErr "boom"]).signing_times.length = 0 ∧
    [JoinResult.joinErr "boom"].length = 1 := by
  decide

/-- C7 (amended): the collected signing-duration sequence has exactly one
entry per join result that carries a normal pipeline outcome
(`Ok(Ok(..))`, whether success or failure) — task-level errors and
executor-level join faults contribute no entry, so the sequence length
is the number of normally-joined outcomes, not `M + L`. -/
theorem c7_signing_sample_per_outcome (rs : List JoinResult) :
    (collect rs).signing_times.length = rs.countP isOutcome ∧
    (collect rs).signing_times = rs.filterMap signingOf := by
  have h : (collect rs).signing_times = rs.filterMap signingOf := by
    simpa [collect, initState] using foldl_signing_times rs initState
  exact ⟨by rw [h, length_filterMap_signingOf], h⟩

/-- C10: in every reachable state of the collection loop (i.e. after
folding any list of join results from the initial state), the number of
accumulated error messages is at most `error_count`: errors are only
appended together with an `error_count` increment, and a success never
appends. -/
theorem c10_errors_bounded_by_count (rs : List JoinResult) :
    (collect rs).results.errors.length ≤ (collect rs).results.error_count := by
  exact foldl_errors_length_le rs initState (by simp [initState])

theorem c3_counterexample :
    finalize 5 (collect [JoinResult.joinErr "boom"]) =
      some { total_time := 5, signing_time := 0, api_time := 0,
             success_count := 0, error_count := 1,
             errors := ["Task join error: boom"] } ∧
    5 - (collect [JoinResult.joinErr "boom"]).signing_times.sum = 5 := by
  constructor <;> decide

/-- C3 (amended): for every completed run in which at least one normal
pipeline outcome was joined (so the signing-sample list is non-empty)
and whose signing sum does not exceed the wall-clock elapsed time, the
frozen result reports `signing_time` = exact sum of the collected
signing samples and `api_time` = elapsed − that sum, discarding the
accumulated per-unit api-duration sum. When no sample was collected
the reconciliation is skipped and the accumulated values (both zero)
are reported instead. -/
theorem c3_timing_reconciliation (rs : List JoinResult) (elapsed : Nat)
    (hne : (collect rs).signing_times ≠ [])
    (hle : (collect rs).signing_times.sum ≤ elapsed) :
    finalize elapsed (collect rs) = some
      { (collect rs).results with
        total_time := elapsed
        signing_time := (collect rs).signing_times.sum
        api_time := elapsed - (collect rs).signing_times.sum } :=
  finalize_nonempty_eq elapsed (collect rs) hne hle

theorem c3_timing_reconciliation_witness :
    (collect [JoinResult.outcome ⟨3, 4, true, none⟩]).signing_times ≠ [] ∧
    (collect [JoinResult.outcome ⟨3, 4, true, none⟩]).signing_times.sum ≤ 10 ∧
    finalize 10 (collect [JoinResult.outcome ⟨3, 4, true, none⟩]) = some
      { (collect [JoinResult.outcome ⟨3, 4, true, none⟩]).results with
        total_time := 10
        signing_time := (collect [JoinResult.outcome ⟨3, 4, true, none⟩]).signing_times.sum
        api_time := 10 - (collect [JoinResult.outcome ⟨3, 4, true, none⟩]).signing_times.sum } :=
  ⟨by decide, by decide,
    c3_timing_reconciliation [JoinResult.outcome ⟨3, 4, true, none⟩] 10 (by decide) (by decide)⟩

/-- C9: whenever at least one signing sample was collected and the sum
of the signing samples is at most the wall-clock elapsed time, the
reconciliation subtraction `total_time - total_signing` cannot
underflow (its panic branch, modelled as `none`, is unreachable), and
the reported `api_time` satisfies `api_time + total_signing = elapsed`,
hence is non-negative. -/
theorem c9_subtraction_no_underflow (rs : List JoinResult) (elapsed : Nat)
    (hne : (collect rs).signing_times ≠ [])
    (hle : (collect rs).signing_times.sum ≤ elapsed) :
    ∃ r, finalize elapsed (collect rs) = some r ∧
      r.api_time + (collect rs).signing_times.sum = elapsed := by
  refine ⟨_, finalize_nonempty_eq elapsed (collect rs) hne hle, ?_⟩
  exact Nat.sub_add_cancel hle

theorem c9_subtraction_no_underflow_witness :
    (collect [JoinResult.outcome ⟨3, 4, true, none⟩]).signing_times ≠ [] ∧
    (collect [JoinResult.outcome ⟨3, 4, true, none⟩]).signing_times.sum ≤ 10 ∧
    ∃ r, finalize 10 (collect [JoinResult.outcome ⟨3, 4, true, none⟩]) = some r ∧
      r.api_time + (collect [JoinResult.outcome ⟨3, 4, true, none⟩]).signing_times.sum = 10 :=
  ⟨by decide, by decide,
    c9_subtraction_no_underflow [JoinResult.outcome ⟨3, 4, true, none⟩] 10 (by decide) (by decide)⟩

/-- C8: the collection fold is arrival-order independent: permuting the
join results leaves `success_count`, `error_count`, the multiset of
collected signing samples, and the frozen result's reported total
signing time unchanged. -/
theorem c8_fold_order_independent (rs₁ rs₂ : List JoinResult) (hp : rs₁.Perm rs₂) :
    (collect rs₁).results.success_count = (collect rs₂).results.success_count ∧
    (collect rs₁).results.error_count = (collect rs₂).results.error_count ∧
    ((collect rs₁).signing_times : Multiset Nat) = ((collect rs₂).signing_times : Multiset Nat) ∧
    ∀ elapsed : Nat,
      (finalize elapsed (collect rs₁)).map BenchmarkResult.signing_time
        = (finalize elapsed (collect rs₂)).map BenchmarkResult.signing_time := by
  have hst₁ : (collect rs₁).signing_times = rs₁.filterMap signingOf := by
    simpa [collect, initState] using foldl_signing_times rs₁ initState
  have hst₂ : (collect rs₂).signing_times = rs₂.filterMap signingOf := by
    simpa [collect, initState] using foldl_signing_times rs₂ initState
  have hpst : (collect rs₁).signing_times.Perm (collect rs₂).signing_times := by
    rw [hst₁, hst₂]; exact hp.filterMap signingOf
  refine ⟨?_, ?_, ?_, ?_⟩
  · have h₁ := foldl_success_count rs₁ initState
    have h₂ := foldl_success_count rs₂ initState
    simp only [collect, initState] at h₁ h₂ ⊢
    rw [h₁, h₂, hp.countP_eq]
  · have h₁ := foldl_error_count rs₁ initState
    have h₂ := foldl_error_count rs₂ initState
    simp only [collect, initState] at h₁ h₂ ⊢
    rw [h₁, h₂, hp.countP_eq]
  · exact Multiset.coe_eq_coe.mpr hpst
  · intro elapsed
    have hsum : (collect rs₁).signing_times.sum = (collect rs₂).signing_times.sum :=
      hpst.sum_eq
    have hacc₁ : (collect rs₁).results.signing_time = (collect rs₁).signing_times.sum := by
      rw [hst₁]
      simpa [collect, initState] using foldl_signing_time_acc rs₁ initState
    have hacc₂ : (collect rs₂).results.signing_time = (collect rs₂).signing_times.sum := by
      rw [hst₂]
      simpa [collect, initState] using foldl_signing_time_acc rs₂ initState
    by_cases he : (collect rs₁).signing_times.isEmpty
    · have he₂ : (collect rs₂).signing_times.isEmpty := by
        rw [List.isEmpty_iff] at he ⊢
        have h3 := hpst
        rw [he] at h3
        exact h3.nil_eq.symm
      simp [finalize, he, he₂, hacc₁, hacc₂, hsum]
    · have he₂ : ¬ (collect rs₂).signing_times.isEmpty := by
        rw [List.isEmpty_iff] at he ⊢
        intro h2
        have h3 := hpst
        rw [h2] at h3
        exact he h3.eq_nil
      by_cases hle : (collect rs₂).signing_times.sum ≤ elapsed
      · simp [finalize, he, he₂, durSub, hsum, hle]
      · simp [finalize, he, he₂, durSub, hsum, hle]

theorem c8_fold_order_independent_witness :
    (collect [JoinResult.outcome ⟨5, 7, false, some "x"⟩, JoinResult.taskErr "y"]).results.success_count
      = (collect [JoinResult.taskErr "y", JoinResult.outcome ⟨5, 7, false, some "x"⟩]).results.success_count :=
  (c8_fold_order_independent _ _ (by decide)).1

/-- C4: when client creation and nonce retrieval succeeded but signing
fails, the produced outcome carries signing duration 0, api duration
equal to the measured nonce time, `success = false`, and an error
message prefixed with the signing-error text; a nonce-retrieval
failure instead yields both durations 0. -/
theorem c4_failure_time_attribution (env : UnitEnv) (e : String) :
    env.clientResult = Except.ok () →
    (((∃ n, env.nonceResult = Except.ok n) → env.signResult = Except.error e →
        runUnit env = ⟨0, env.nonceTime, false, some ("Signing error: " ++ e)⟩) ∧
      (env.nonceResult = Except.error e →
        runUnit env = ⟨0, 0, false, some ("Nonce error: " ++ e)⟩)) := by
  intro hc
  constructor
  · rintro ⟨n, hn⟩ hs
    simp [runUnit, hc, hn, hs]
  · intro hn
    simp [runUnit, hc, hn]

theorem c4_failure_time_attribution_witness :
    runUnit ⟨Except.ok (), Except.ok 7, 3, Except.error "bad key", 9,
        SendResult.response none, 11⟩
      = ⟨0, 3, false, some ("Signing error: " ++ "bad key")⟩ :=
  (c4_failure_time_attribution _ "bad key" rfl).1 ⟨7, rfl⟩ rfl

/-- C5: for a unit whose submission received a response body, the
outcome is a success with no error exactly when the parsed integer
`code` equals 200; a missing/unparseable body defaults the code to −1,
yielding failure with `"Unknown error"`; and every non-200 code yields
failure with the body's `message` field, or `"Unknown error"` when it
is absent. -/
theorem c5_response_code_classification (env : UnitEnv) (body : Option Json)
    (n : Int) (sig : List Nat)
    (hc : env.clientResult = Except.ok ())
    (hn : env.nonceResult = Except.ok n)
    (hs : env.signResult = Except.ok sig)
    (hr : env.sendResult = SendResult.response body) :
    (((runUnit env).success = true ∧ (runUnit env).error = none) ↔
      (((body.getD (Json.obj [])).get "code").as_i64).getD (-1) = 200) ∧
    (body = none →
      (((body.getD (Json.obj [])).get "code").as_i64).getD (-1) = -1 ∧
      runUnit env = ⟨env.signTime, env.sendTime + env.nonceTime, false, some "Unknown error"⟩) ∧
    ((((body.getD (Json.obj [])).get "code").as_i64).getD (-1) ≠ 200 →
      (runUnit env).success = false ∧
      (runUnit env).error
        = some ((((body.getD (Json.obj [])).get "message").as_str).getD "Unknown error")) := by
  have hru : runUnit env = classifyResponse body env.signTime (env.sendTime + env.nonceTime) := by
    simp [runUnit, hc, hn, hs, hr]
  rw [hru]
  by_cases hcode : (((body.getD (Json.obj [])).get "code").as_i64).getD (-1) = 200
  · refine ⟨by simp [classifyResponse, hcode], ?_, fun hne => absurd hcode hne⟩
    intro hb
    subst hb
    exact absurd hcode (by decide)
  · refine ⟨by simp [classifyResponse, hcode], ?_, ?_⟩
    · intro hb
      subst hb
      exact ⟨by decide, rfl⟩
    · intro _
      simp [classifyResponse, hcode]

theorem c5_response_code_classification_witness :
    (runUnit ⟨Except.ok (), Except.ok 7, 2, Except.ok [1], 4,
        SendResult.response (some (Json.obj [("code", Json.num 200)])), 9⟩).success = true ∧
    (runUnit ⟨Except.ok (), Except.ok 7, 2, Except.ok [1], 4,
        SendResult.response (some (Json.obj [("code", Json.num 200)])), 9⟩).error = none :=
  ((c5_response_code_classification _ _ 7 [1] rfl rfl rfl rfl).1).mpr (by decide)

/-- C6: market payloads always carry type discriminator 1 and
time-in-force 0, limit payloads type 0 and time-in-force 1; the side
flag alternates strictly with index parity within each kind; and the
client order indices (market base 1000000, limit base 2000000) are
injective within each kind and disjoint across kinds for the
configured order counts. -/
theorem c6_payload_discriminators (acct : Int) (aki : Nat) (ea nonce : Int) (i j : Nat) :
    (mkMarketTx acct aki i ea nonce).orderType = 1 ∧
    (mkMarketTx acct aki i ea nonce).TimeInForce = 0 ∧
    (mkLimitTx acct aki i ea nonce).orderType = 0 ∧
    (mkLimitTx acct aki i ea nonce).TimeInForce = 1 ∧
    ((mkMarketTx acct aki i ea nonce).IsAsk = 1 ↔ i % 2 = 0) ∧
    ((mkLimitTx acct aki i ea nonce).IsAsk = 1 ↔ i % 2 = 0) ∧
    (mkMarketTx acct aki i ea nonce).IsAsk ≠ (mkMarketTx acct aki (i + 1) ea nonce).IsAsk ∧
    (mkLimitTx acct aki i ea nonce).IsAsk ≠ (mkLimitTx acct aki (i + 1) ea nonce).IsAsk ∧
    ((mkMarketTx acct aki i ea nonce).ClientOrderIndex
        = (mkMarketTx acct aki j ea nonce).ClientOrderIndex → i = j) ∧
    ((mkLimitTx acct aki i ea nonce).ClientOrderIndex
        = (mkLimitTx acct aki j ea nonce).ClientOrderIndex → i = j) ∧
    (i < num_market → j < num_limit →
      (mkMarketTx acct aki i ea nonce).ClientOrderIndex
        ≠ (mkLimitTx acct aki j ea nonce).ClientOrderIndex) := by
  refine ⟨rfl, rfl, rfl, rfl, ?_, ?_, ?_, ?_, ?_, ?_, ?_⟩
  · simp only [mkMarketTx]
    split_ifs with h <;> simp [h]
  · simp only [mkLimitTx]
    split_ifs with h <;> simp [h]
  · simp only [mkMarketTx]
    split_ifs <;> omega
  · simp only [mkLimitTx]
    split_ifs <;> omega
  · simp only [mkMarketTx]
    intro h
    omega
  · simp only [mkLimitTx]
    intro h
    omega
  · intro hi hj
    simp only [mkMarketTx, mkLimitTx, num_market, num_limit] at hi hj ⊢
    omega

theorem c6_payload_discriminators_witness :
    3 < num_market ∧ 4 < num_limit ∧
    (mkMarketTx 1 2 3 7 8).ClientOrderIndex ≠ (mkLimitTx 1 2 4 7 8).ClientOrderIndex :=
  ⟨by decide, by decide,
    (c6_payload_discriminators 1 2 7 8 3 4).2.2.2.2.2.2.2.2.2.2 (by decide) (by decide)⟩
